import Mathlib

/-!
Verification of the mailer-service core (Go) against its natural-language
specification.  The definitions below are a shallow embedding of the
repository's source:

* `storage` (src/unnamed/part_001, current revision): the durable stores for
  email lifecycle records, templates and template versions.  The SQL tables
  are modelled as Lean lists of rows inside a `Store` structure; `NOW()` is
  passed explicitly as a `Nat` timestamp; `BIGSERIAL` identifiers are
  modelled by explicit counters.  Database-connectivity errors are outside
  the model: every query is modelled by its effect on the tables.
* `handlers/email.go`: the request handlers, modelled after the HTTP/JSON
  plumbing has been stripped (the spec excludes that layer).  The SMTP
  transport is external, so its outcome is a parameter of the handler
  (`TransportOutcome`); the post-attempt status write may fail, which is
  modelled by the `pfail` parameter (the Go code discards that error with
  `_ =`).
* the Go `text/template` / `html/template` renderers are modelled post-parse:
  a template is a list of segments (literal text or a `.field` placeholder);
  `renderText` substitutes verbatim, `renderHTML` substitutes through the
  HTML text-context escaper of Go's `html/template` (`&`, `<`, `>`, `"`,
  `'`, NUL).
-/

namespace Mailer

/-- One row of the `emails` table (storage.Email).  `error` and `sentAt` are
nullable columns. -/
structure Email where
  id : Nat
  to_addr : String
  subject : String
  body : String
  status : String
  message : Option String
  createdAt : Nat
  sentAt : Option Nat
deriving Repr, DecidableEq

/-- One row of the `templates` table (storage.Template). -/
structure Template where
  id : Nat
  tplKey : String
  name : String
  description : String
  createdAt : Nat
  updatedAt : Nat
deriving Repr, DecidableEq

/-- One row of the `template_versions` table (storage.TemplateVersionDTO).
`bodyHTML`/`bodyText` are nullable columns (`sql.NullString`). -/
structure TVRow where
  templateId : Nat
  version : Nat
  locale : String
  subject : String
  bodyHTML : Option String
  bodyText : Option String
  isActive : Bool
  createdAt : Nat
deriving Repr, DecidableEq

/-- The projection returned by `GetActiveTemplateVersion`
(storage.TemplateVersion: subject, body_html, body_text). -/
structure TemplateVersion where
  subject : String
  bodyHTML : Option String
  bodyText : Option String
deriving Repr, DecidableEq

/-- The durable state behind storage.Store: the three tables plus the
`BIGSERIAL` counters that generate fresh row identifiers. -/
structure Store where
  emails : List Email
  nextEmailId : Nat
  templates : List Template
  nextTemplateId : Nat
  versions : List TVRow
deriving Repr, DecidableEq

/-! ## Email-record operations (storage, src/unnamed/part_001) -/

/-- storage.InsertQueued: INSERT INTO emails ... status 'queued' RETURNING id. -/
def InsertQueued (st : Store) (now : Nat) (toA subject body : String) :
    Store × Nat :=
  ({ st with
      emails := st.emails ++
        [⟨st.nextEmailId, toA, subject, body, "queued", none, now, none⟩],
      nextEmailId := st.nextEmailId + 1 },
   st.nextEmailId)

/-- storage.MarkSent: UPDATE emails SET status='sent', sent_at=NOW() WHERE id. -/
def MarkSent (st : Store) (now : Nat) (id : Nat) : Store :=
  { st with
      emails := st.emails.map fun e =>
        if e.id == id then { e with status := "sent", sentAt := some now } else e }

/-- storage.MarkFailed: UPDATE emails SET status='failed', error=msg WHERE id. -/
def MarkFailed (st : Store) (id : Nat) (msg : String) : Store :=
  { st with
      emails := st.emails.map fun e =>
        if e.id == id then { e with status := "failed", message := some msg } else e }

/-- storage.InsertDraft: INSERT INTO emails ... status 'draft' RETURNING id. -/
def InsertDraft (st : Store) (now : Nat) (toA subject body : String) :
    Store × Nat :=
  ({ st with
      emails := st.emails ++
        [⟨st.nextEmailId, toA, subject, body, "draft", none, now, none⟩],
      nextEmailId := st.nextEmailId + 1 },
   st.nextEmailId)

/-- storage.UpdateDraft: UPDATE emails SET to_addr,subject,body WHERE id AND
status='draft'; returns RowsAffected == 1. -/
def UpdateDraft (st : Store) (id : Nat) (toA subject body : String) :
    Store × Bool :=
  let hits := fun (e : Email) => e.id == id && e.status == "draft"
  ({ st with
      emails := st.emails.map fun e =>
        if hits e then { e with to_addr := toA, subject := subject, body := body }
        else e },
   st.emails.countP hits == 1)

/-- storage.GetEmailByID: SELECT ... FROM emails WHERE id=$1 (none on
sql.ErrNoRows). -/
def GetEmailByID (st : Store) (id : Nat) : Option Email :=
  st.emails.find? fun e => e.id == id

/-! ## Template-store operations (storage, src/unnamed/part_001) -/

/-- The join `templates t ON t.id = v.template_id AND t.tpl_key = key` used by
the template-version queries. -/
def tplKeyMatches (st : Store) (key : String) (v : TVRow) : Bool :=
  st.templates.any fun t => t.id == v.templateId && t.tplKey == key

/-- The row kept by `ORDER BY v.created_at DESC LIMIT 1`: an element of the
list whose `createdAt` is maximal (ties broken arbitrarily, as in SQL). -/
def maxByCreated : List TVRow → Option TVRow
  | [] => none
  | v :: vs =>
    match maxByCreated vs with
    | none => some v
    | some w => if w.createdAt > v.createdAt then some w else some v

/-- storage.GetActiveTemplateVersion: empty locale defaults to 'es-GT'; first
query selects an active row for the exact (key, locale); on sql.ErrNoRows the
fallback query selects the most recently created active row for the key under
any locale; none if that also finds no row (NotFoundError). -/
def GetActiveTemplateVersion (st : Store) (tplKey locale : String) :
    Option TemplateVersion :=
  let loc := if locale = "" then "es-GT" else locale
  match st.versions.find? (fun v =>
      tplKeyMatches st tplKey v && v.locale == loc && v.isActive) with
  | some v => some ⟨v.subject, v.bodyHTML, v.bodyText⟩
  | none =>
    match maxByCreated (st.versions.filter fun v =>
        tplKeyMatches st tplKey v && v.isActive) with
    | some v => some ⟨v.subject, v.bodyHTML, v.bodyText⟩
    | none => none

/-- storage.EnsureTemplate: INSERT ... ON CONFLICT (tpl_key) DO UPDATE SET
updated_at ... RETURNING id. -/
def EnsureTemplate (st : Store) (now : Nat) (key name desc : String) :
    Store × Nat :=
  match st.templates.find? (fun t => t.tplKey == key) with
  | some t =>
    ({ st with
        templates := st.templates.map fun u =>
          if u.tplKey == key then { u with updatedAt := now } else u },
     t.id)
  | none =>
    ({ st with
        templates := st.templates ++ [⟨st.nextTemplateId, key, name, desc, now, now⟩],
        nextTemplateId := st.nextTemplateId + 1 },
     st.nextTemplateId)

/-- SELECT COALESCE(MAX(version),0) FROM template_versions WHERE
template_id=$1 — note: over every locale of the template. -/
def maxVersionFor (st : Store) (tid : Nat) : Nat :=
  st.versions.foldl (fun m v => if v.templateId == tid then max m v.version else m) 0

/-- storage.CreateTemplateVersion: resolves the template id by key (creating
the template via EnsureTemplate when absent), computes the next version number
as COALESCE(MAX(version),0)+1 over the whole template, and inserts the row
with the `is_active` flag exactly as passed (the Go source keeps a dead
`nextVer == 0` re-check, reproduced here). -/
def CreateTemplateVersion (st : Store) (now : Nat) (tplKey locale subject : String)
    (bodyHTML bodyText : Option String) (isActive : Bool) : Store :=
  let resolved :=
    match st.templates.find? (fun t => t.tplKey == tplKey) with
    | some t => (st, t.id)
    | none => EnsureTemplate st now tplKey tplKey ""
  let st1 := resolved.1
  let tplID := resolved.2
  let nextVer := maxVersionFor st1 tplID + 1
  let nextVer := if nextVer == 0 then 1 else nextVer
  { st1 with
      versions := st1.versions ++
        [⟨tplID, nextVer, locale, subject, bodyHTML, bodyText, isActive, now⟩] }

/-- The first UPDATE of ActivateTemplateVersion, per row: deactivate every
version of the template with this key and this locale. -/
def actStep1 (st : Store) (tplKey locale : String) (v : TVRow) : TVRow :=
  if tplKeyMatches st tplKey v && v.locale == locale then
    { v with isActive := false } else v

/-- The second UPDATE of ActivateTemplateVersion, per row: activate the row of
this key and locale carrying the requested version number. -/
def actStep2 (st : Store) (tplKey : String) (ver : Nat) (locale : String)
    (v : TVRow) : TVRow :=
  if tplKeyMatches st tplKey v && v.locale == locale && v.version == ver then
    { v with isActive := true } else v

/-- storage.ActivateTemplateVersion: first UPDATE sets is_active=FALSE on
every version row joined to the template with this key and having this
locale; the second UPDATE sets is_active=TRUE on the rows of that key/locale
with the given version number.  Neither UPDATE reports how many rows it
touched, so the function has no failure outcome besides database errors
(outside the model). -/
def ActivateTemplateVersion (st : Store) (tplKey : String) (ver : Nat)
    (locale : String) : Store :=
  let vs1 := st.versions.map (actStep1 st tplKey locale)
  let vs2 := vs1.map (actStep2 st tplKey ver locale)
  { st with versions := vs2 }

/-! ## Renderer (handlers/email.go: renderText / renderHTML)

Modelled post-parse: a Go `{{ .field }}` template is a list of segments,
either literal text or a field placeholder.  Both Go renderers execute the
same substitution; `html/template` additionally escapes each substituted
value for the surrounding HTML text context. -/

/-- One parsed segment of a Go template string. -/
inductive Seg where
  | lit (s : String)
  | field (f : String)
deriving Repr, DecidableEq

/-- Value of a data-mapping field as the Go template engine prints it; a
missing map key prints as the engine's no-value marker. -/
def lookupField (d : List (String × String)) (f : String) : String :=
  match d.lookup f with
  | some v => v
  | none => "<no value>"

/-- The character table of Go html/template's HTML text-context escaper. -/
def escapeChar (c : Char) : String :=
  if c = '&' then "&amp;"
  else if c = '<' then "&lt;"
  else if c = '>' then "&gt;"
  else if c = '"' then "&#34;"
  else if c = '\'' then "&#39;"
  else if c = Char.ofNat 0 then "�"
  else String.singleton c

/-- HTML text-context escaping of a whole substituted value. -/
def escapeHTML (s : String) : String :=
  s.data.foldr (fun c acc => escapeChar c ++ acc) ""

/-- handlers renderText: text/template — substitutes field values verbatim,
no escaping. -/
def renderText : List Seg → List (String × String) → String
  | [], _ => ""
  | .lit s :: t, d => s ++ renderText t d
  | .field f :: t, d => lookupField d f ++ renderText t d

/-- handlers renderHTML: html/template — same substitution, each substituted
value passed through the HTML escaper. -/
def renderHTML : List Seg → List (String × String) → String
  | [], _ => ""
  | .lit s :: t, d => s ++ renderHTML t d
  | .field f :: t, d => escapeHTML (lookupField d f) ++ renderHTML t d

/-! ## Handlers (handlers/email.go)

The HTTP method/JSON plumbing is stripped (excluded by the spec).  A handler
returns the new store state together with the JSON payload it writes. -/

/-- Whitespace as recognised by Go strings.TrimSpace on the inputs at hand. -/
def isWS (c : Char) : Bool :=
  c == ' ' || c == '\t' || c == '\n' || c == '\r'

/-- Go strings.TrimSpace: drops leading and trailing whitespace. -/
def trimWS (s : String) : String :=
  ⟨((s.data.dropWhile isWS).reverse.dropWhile isWS).reverse⟩

/-- Go strings.Contains with a one-character pattern. -/
def strContains (s : String) (c : Char) : Bool :=
  s.data.any fun x => x == c

/-- models.EmailResponse as written by writeJSON/sendErrorResponse. -/
structure Response where
  success : Bool
  message : String
  errorMsg : Option String
deriving Repr, DecidableEq

/-- handlers sendErrorResponse. -/
def sendErrorResponse (msg : String) : Response :=
  ⟨false, "Error enviando correo", some msg⟩

/-- handlers isValidEmail: length over 3 bytes, contains '@', contains '.'. -/
def isValidEmail (email : String) : Bool :=
  email.utf8ByteSize > 3 && strContains email '@' && strContains email '.'

/-- Outcome of the external SMTP transport inside sendSMTP's select: the
goroutine's smtp.SendMail result wins, or the timer fires first. -/
inductive TransportOutcome where
  | success
  | failure (reason : String)
  | timeout
deriving Repr, DecidableEq

/-- The error value sendSMTP returns to its caller for each outcome; on
timeout it is the fixed delivery-timed-out reason. -/
def sendSMTPResult : TransportOutcome → Option String
  | .success => none
  | .failure reason => some reason
  | .timeout => some "timeout en envío SMTP"

/-- handlers SendEmailHandler (direct send), after JSON decoding: validates
the three fields and the recipient, inserts a queued record, invokes the
transport, then marks the record sent or failed.  `pfail = some err` means
that post-attempt UPDATE itself failed with `err`; the Go code discards that
error (`_ = h.Store.MarkFailed(...)` / `_ = h.Store.MarkSent(...)`), leaving
the row unchanged and the response unaffected. -/
def SendEmailHandler (st : Store) (now : Nat) (toA subject body : String)
    (outcome : TransportOutcome) (pfail : Option String) : Store × Response :=
  if trimWS toA == "" || trimWS subject == "" || trimWS body == "" then
    (st, sendErrorResponse "Todos los campos (to, subject, body) son requeridos")
  else if !isValidEmail toA then
    (st, sendErrorResponse "Formato de email destinatario inválido")
  else
    let ins := InsertQueued st now toA subject body
    match sendSMTPResult outcome with
    | some e =>
      let st2 := match pfail with
        | some _ => ins.1
        | none => MarkFailed ins.1 ins.2 e
      (st2, sendErrorResponse ("Error enviando correo: " ++ e))
    | none =>
      let st2 := match pfail with
        | some _ => ins.1
        | none => MarkSent ins.1 now ins.2
      (st2, ⟨true, "Correo enviado exitosamente", none⟩)

/-- handlers SendFromTemplateHandler (templated send), after JSON decoding.
`parse` stands for the Go template parser turning the stored template strings
into segment lists.  Resolves the active version, renders subject (text),
HTML body and text body, persists the HTML rendering if present else the
text rendering, then follows the direct-send transport/mark steps.  `pfail`
as in `SendEmailHandler`. -/
def SendFromTemplateHandler (st : Store) (now : Nat) (templateKey locale toA : String)
    (data : List (String × String)) (parse : String → List Seg)
    (outcome : TransportOutcome) (pfail : Option String) : Store × Response :=
  if trimWS templateKey == "" || !isValidEmail toA then
    (st, sendErrorResponse "templateKey y to son requeridos / formato email inválido")
  else
    match GetActiveTemplateVersion st templateKey locale with
    | none => (st, sendErrorResponse "Plantilla no encontrada o inactiva")
    | some tv =>
      let subject := renderText (parse tv.subject) data
      let bodyHTML := match tv.bodyHTML with
        | some h => renderHTML (parse h) data
        | none => ""
      let bodyText := match tv.bodyText with
        | some x => renderText (parse x) data
        | none => ""
      let bodyPersist := if bodyHTML == "" then bodyText else bodyHTML
      if bodyPersist == "" then
        (st, sendErrorResponse "La plantilla activa no tiene cuerpo (HTML/texto)")
      else
        let ins := InsertQueued st now toA subject bodyPersist
        match sendSMTPResult outcome with
        | some e =>
          let st2 := match pfail with
            | some _ => ins.1
            | none => MarkFailed ins.1 ins.2 e
          (st2, sendErrorResponse ("Error enviando correo: " ++ e))
        | none =>
          let st2 := match pfail with
            | some _ => ins.1
            | none => MarkSent ins.1 now ins.2
          (st2, ⟨true, "Correo enviado (plantilla)", none⟩)

/-- The request body of POST /templates/versions (CreateVersionReq); the
nullable body pointers are optional strings. -/
structure CreateVersionReq where
  templateKey : String
  locale : String
  subject : String
  bodyHTML : Option String
  bodyText : Option String
  activate : Bool
deriving Repr, DecidableEq

/-- handlers CreateTemplateVersionHandler, after JSON decoding: rejects when
templateKey, locale or subject trims to empty, otherwise calls the store's
CreateTemplateVersion.  The error value is the validation message written by
sendErrorResponse. -/
def CreateTemplateVersionHandler (st : Store) (now : Nat) (req : CreateVersionReq) :
    Except String Store :=
  if trimWS req.templateKey == "" || trimWS req.locale == "" || trimWS req.subject == "" then
    .error "templateKey, locale y subject son requeridos"
  else
    .ok (CreateTemplateVersion st now req.templateKey req.locale req.subject
      req.bodyHTML req.bodyText req.activate)

/-- handlers ActivateTemplateVersionHandler, after JSON decoding: rejects when
templateKey or locale trims to empty or the version is not positive, otherwise
calls the store's ActivateTemplateVersion and reports success. -/
def ActivateTemplateVersionHandler (st : Store) (tplKey : String) (ver : Nat)
    (locale : String) : Store × Response :=
  if trimWS tplKey == "" || ver == 0 || trimWS locale == "" then
    (st, sendErrorResponse "templateKey, version y locale son requeridos")
  else
    (ActivateTemplateVersion st tplKey ver locale, ⟨true, "", none⟩)

/-! ## Invariants and auxiliary predicates -/

/-- Two version rows that are simultaneously active for the same
(template, locale) pair. -/
def ActivePair (a b : TVRow) : Prop :=
  a.isActive = true ∧ b.isActive = true ∧
  a.templateId = b.templateId ∧ a.locale = b.locale

instance : DecidableRel ActivePair := fun a b => by
  unfold ActivePair; infer_instance

/-- The spec's invariant: at most one version row is active per
(template, locale) pair. -/
def AtMostOneActive (st : Store) : Prop :=
  st.versions.Pairwise fun a b => ¬ ActivePair a b

instance (st : Store) : Decidable (AtMostOneActive st) := by
  unfold AtMostOneActive; infer_instance

/-- The UNIQUE(template_id, version, locale) constraint of the
template_versions table. -/
def VersionTriplesUnique (st : Store) : Prop :=
  st.versions.Pairwise fun a b =>
    ¬ (a.templateId = b.templateId ∧ a.version = b.version ∧ a.locale = b.locale)

instance (st : Store) : Decidable (VersionTriplesUnique st) := by
  unfold VersionTriplesUnique; infer_instance

/-- Substring test used to state the escaping and error-surfacing claims
(Go strings.Contains): the pattern occurs contiguously in the string. -/
def containsSub (s pat : String) : Bool :=
  decide (pat.data <:+: s.data)

/-! ## Concrete fixtures used by counterexamples and witnesses -/

/-- A store holding one template `k` whose version 1 (locale `en`) is the
active version. -/
def stActive : Store :=
  { emails := [], nextEmailId := 1,
    templates := [⟨1, "k", "k", "", 0, 0⟩], nextTemplateId := 2,
    versions := [⟨1, 1, "en", "s", none, some "b", true, 0⟩] }

/-- The empty store. -/
def stEmpty : Store :=
  { emails := [], nextEmailId := 1, templates := [], nextTemplateId := 1,
    versions := [] }

/-- A template whose literal text itself contains a script tag, followed by a
substituted field. -/
def tC8 : List Seg := [.field "x", .lit "<script>z</script>"]

/-- A data mapping whose substituted value contains a script tag. -/
def dC8 : List (String × String) := [("x", "<script>")]

/-! ## Claim theorems -/

/-- C1 counterexample: with version 1 of template `k` (locale `en`) active,
addVersion with activateOnCreate=true merely inserts a second row already
marked active for the same (template, locale) pair — it performs no
deactivation — so the at-most-one-active invariant that held before the call
is violated after it. -/
theorem c1_counterexample_second_active_version :
    AtMostOneActive stActive ∧
    ¬ AtMostOneActive
        (CreateTemplateVersion stActive 5 "k" "en" "s2" none (some "b2") true) := by
  decide

/-- C2, code evaluated at the failing input: with version 1 of template `k`
(locale `en`) active, activating the nonexistent version 99 reports success
and deactivates every version for the pair — instead of failing with
NotFoundError and leaving the active set unchanged.  The first UPDATE of
ActivateTemplateVersion deactivates unconditionally and the second matches no
row; neither reports the miss. -/
theorem c2_activate_missing_version_silently_deactivates :
    GetActiveTemplateVersion stActive "k" "en" = some ⟨"s", none, some "b"⟩ ∧
    (ActivateTemplateVersionHandler stActive "k" 99 "en").2.success = true ∧
    ((ActivateTemplateVersionHandler stActive "k" 99 "en").1.versions.all
      fun v => !v.isActive) = true ∧
    GetActiveTemplateVersion
      (ActivateTemplateVersionHandler stActive "k" 99 "en").1 "k" "en" = none := by
  decide

/-- C3 counterexample: the transport fails with reason `x` while the
post-attempt MarkFailed write itself fails with error `boom`; the caller's
response carries only the transport reason.  The persistence error is
discarded (`_ =` in the Go source), not surfaced in addition to the transport
error. -/
theorem c3_counterexample_transition_error_not_surfaced :
    (SendEmailHandler stActive 0 "a@b.c" "s" "b" (.failure "x") (some "boom")).2 =
      sendErrorResponse "Error enviando correo: x" ∧
    containsSub
      ((SendEmailHandler stActive 0 "a@b.c" "s" "b"
          (.failure "x") (some "boom")).2.errorMsg.getD "")
      "boom" = false := by
  decide

/-- C4 counterexample: an add-version request whose two body fields are both
absent (with non-empty key, locale and subject) is accepted and creates a
TemplateVersion row — the handler validates only templateKey, locale and
subject, never the bodies. -/
theorem c4_counterexample_bodiless_version_created :
    (CreateTemplateVersionHandler stActive 5 ⟨"k", "en", "s", none, none, false⟩).isOk
      = true ∧
    ((CreateTemplateVersionHandler stActive 5
        ⟨"k", "en", "s", none, none, false⟩).toOption.map
      fun st => st.versions.length) = some 2 := by
  decide

/-- C5 counterexample: the first version added under locale `fr` of template
`k` receives version number 2, because the next number is MAX(version)+1 over
every locale of the template; under the claim's per-(template, locale)
numbering it would be 1, unaffected by the existing `en` version. -/
theorem c5_counterexample_cross_locale_numbering :
    ((CreateTemplateVersion stActive 5 "k" "fr" "s" none (some "b") false).versions.map
      fun v => (v.locale, v.version)) = [("en", 1), ("fr", 2)] := by
  decide

/-- C8 counterexample: with the substituted value containing `<script>`, the
renderHTML output still contains a literal `<script>` — the one written in the
template's own text, which html/template leaves unescaped (only substituted
values are escaped). -/
theorem c8_counterexample_literal_script_in_output :
    containsSub (lookupField dC8 "x") "<script>" = true ∧
    containsSub (renderHTML tC8 dC8) "<script>" = true ∧
    renderHTML tC8 dC8 = "&lt;script&gt;<script>z</script>" := by
  decide

/-- C10: the recipient plausibility check used by both send entry points
accepts a string iff its byte length exceeds 3 and it contains '@' somewhere
and '.' somewhere, with no constraint on order or position: `a@b.c` is
accepted, `user@localhost` is rejected, `..@.` is accepted; each handler
rejects a recipient failing the check and leaves the store unchanged. -/
theorem c10_recipient_check :
    (∀ s : String, isValidEmail s = true ↔
      3 < s.utf8ByteSize ∧ '@' ∈ s.data ∧ '.' ∈ s.data) ∧
    isValidEmail "a@b.c" = true ∧
    isValidEmail "user@localhost" = false ∧
    isValidEmail "..@." = true ∧
    (∀ st now toA subject body outcome pfail,
      trimWS toA ≠ "" → trimWS subject ≠ "" → trimWS body ≠ "" →
      isValidEmail toA = false →
      SendEmailHandler st now toA subject body outcome pfail =
        (st, sendErrorResponse "Formato de email destinatario inválido")) ∧
    (∀ st now key locale toA data pf outcome pfail,
      isValidEmail toA = false →
      SendFromTemplateHandler st now key locale toA data pf outcome pfail =
        (st, sendErrorResponse
          "templateKey y to son requeridos / formato email inválido")) := by
  refine ⟨?_, by decide, by decide, by decide, ?_, ?_⟩
  · intro s
    simp [isValidEmail, strContains, List.any_eq_true, Bool.and_eq_true,
      decide_eq_true_eq, and_assoc]
  · intro st now toA subject body outcome pfail h1 h2 h3 h4
    simp [SendEmailHandler, h1, h2, h3, h4]
  · intro st now key locale toA data pf outcome pfail h
    simp [SendFromTemplateHandler, h]

/-- C10 witness: the theorem applied to the rejected concrete recipient
`user@localhost` in the direct-send handler. -/
theorem c10_recipient_check_witness :
    trimWS "user@localhost" ≠ "" ∧ trimWS "s" ≠ "" ∧ trimWS "b" ≠ "" ∧
    isValidEmail "user@localhost" = false ∧
    SendEmailHandler stEmpty 0 "user@localhost" "s" "b" .success none =
      (stEmpty, sendErrorResponse "Formato de email destinatario inválido") :=
  ⟨by decide, by decide, by decide, by decide,
    c10_recipient_check.2.2.2.2.1 stEmpty 0 "user@localhost" "s" "b" .success none
      (by decide) (by decide) (by decide) (by decide)⟩

/-- C3 amended: the post-attempt transition write is best-effort and its
error is discarded, not surfaced: in both send flows the caller's response is
independent of whether that write fails (only the transport outcome is
reported), and the transition is not retried — on such a failure the record
is left exactly as inserted, still queued. -/
theorem c3_transition_write_discarded :
    (∀ (st : Store) (now : Nat) (toA subject body : String)
        (outcome : TransportOutcome) (p : String),
      (SendEmailHandler st now toA subject body outcome (some p)).2 =
        (SendEmailHandler st now toA subject body outcome none).2) ∧
    (∀ (st : Store) (now : Nat) (key locale toA : String)
        (data : List (String × String)) (pf : String → List Seg)
        (outcome : TransportOutcome) (p : String),
      (SendFromTemplateHandler st now key locale toA data pf outcome (some p)).2 =
        (SendFromTemplateHandler st now key locale toA data pf outcome none).2) ∧
    (∀ (st : Store) (now : Nat) (toA subject body : String)
        (outcome : TransportOutcome) (p : String),
      trimWS toA ≠ "" → trimWS subject ≠ "" → trimWS body ≠ "" →
      isValidEmail toA = true →
      (SendEmailHandler st now toA subject body outcome (some p)).1 =
        (InsertQueued st now toA subject body).1) := by
  refine ⟨?_, ?_, ?_⟩
  · intro st now toA subject body outcome p
    unfold SendEmailHandler
    split
    · rfl
    · split
      · rfl
      · cases outcome <;> rfl
  · intro st now key locale toA data pf outcome p
    unfold SendFromTemplateHandler
    cases outcome <;> (repeat' split) <;> simp [apply_ite Prod.snd]
  · intro st now toA subject body outcome p h1 h2 h3 h4
    simp only [SendEmailHandler, h1, h2, h3, h4]
    simp [h1, h2, h3, h4]
    cases outcome <;> rfl

/-- C3 witness: the amended theorem applied at a concrete failing transition
write: the response with a failing MarkFailed equals the one without, and the
store keeps the freshly inserted queued record. -/
theorem c3_transition_write_discarded_witness :
    (SendEmailHandler stEmpty 0 "a@b.c" "s" "b" (.failure "x") (some "boom")).2 =
      (SendEmailHandler stEmpty 0 "a@b.c" "s" "b" (.failure "x") none).2 ∧
    (trimWS "a@b.c" ≠ "" ∧ trimWS "s" ≠ "" ∧ trimWS "b" ≠ "" ∧
      isValidEmail "a@b.c" = true ∧
      (SendEmailHandler stEmpty 0 "a@b.c" "s" "b" (.failure "x") (some "boom")).1 =
        (InsertQueued stEmpty 0 "a@b.c" "s" "b").1) :=
  ⟨c3_transition_write_discarded.1 stEmpty 0 "a@b.c" "s" "b" (.failure "x") "boom",
   by decide, by decide, by decide, by decide,
   c3_transition_write_discarded.2.2 stEmpty 0 "a@b.c" "s" "b" (.failure "x") "boom"
     (by decide) (by decide) (by decide) (by decide)⟩

/-- find? skips a prefix on which the predicate is everywhere false. -/
theorem find?_append_right {α : Type} {p : α → Bool} {l₁ l₂ : List α}
    (h : ∀ a ∈ l₁, p a = false) : (l₁ ++ l₂).find? p = l₂.find? p := by
  induction l₁ with
  | nil => rfl
  | cons a t ih =>
    simp only [List.cons_append, List.find?]
    rw [h a (List.mem_cons_self a t)]
    exact ih fun x hx => h x (List.mem_cons_of_mem a hx)

/-- Looking up the freshly inserted record after MarkSent: the pre-existing
rows all carry smaller identifiers, so the marked new row is found, with
status sent and the sent timestamp stamped. -/
theorem getEmail_markSent_insertQueued (st : Store) (now ns : Nat)
    (toA subject body : String)
    (hfresh : ∀ e ∈ st.emails, e.id < st.nextEmailId) :
    GetEmailByID
        (MarkSent (InsertQueued st now toA subject body).1 ns
          (InsertQueued st now toA subject body).2)
        st.nextEmailId =
      some ⟨st.nextEmailId, toA, subject, body, "sent", none, now, some ns⟩ := by
  unfold GetEmailByID MarkSent InsertQueued
  simp only [List.map_append, List.map_cons, List.map_nil]
  rw [find?_append_right]
  · simp
  · intro a ha
    obtain ⟨e, he, rfl⟩ := List.mem_map.mp ha
    have hne : e.id ≠ st.nextEmailId := Nat.ne_of_lt (hfresh e he)
    simp [hne]

/-- Looking up the freshly inserted record after MarkFailed: the marked new
row is found, with status failed and the message stored. -/
theorem getEmail_markFailed_insertQueued (st : Store) (now : Nat)
    (toA subject body msg : String)
    (hfresh : ∀ e ∈ st.emails, e.id < st.nextEmailId) :
    GetEmailByID
        (MarkFailed (InsertQueued st now toA subject body).1
          (InsertQueued st now toA subject body).2 msg)
        st.nextEmailId =
      some ⟨st.nextEmailId, toA, subject, body, "failed", some msg, now, none⟩ := by
  unfold GetEmailByID MarkFailed InsertQueued
  simp only [List.map_append, List.map_cons, List.map_nil]
  rw [find?_append_right]
  · simp
  · intro a ha
    obtain ⟨e, he, rfl⟩ := List.mem_map.mp ha
    have hne : e.id ≠ st.nextEmailId := Nat.ne_of_lt (hfresh e he)
    simp [hne]

/-- C6: for every valid direct-send input (fresh-id store, non-blank fields,
plausible recipient), a successful transport leaves the record of the
generated id with status sent and sent_at stamped; a transport failure with a
non-empty reason leaves it failed with that non-empty error text; a transport
timeout leaves it failed with the distinct delivery-timed-out reason. -/
theorem c6_direct_send_record_outcome (st : Store) (now : Nat)
    (toA subject body : String)
    (hfresh : ∀ e ∈ st.emails, e.id < st.nextEmailId)
    (h1 : trimWS toA ≠ "") (h2 : trimWS subject ≠ "") (h3 : trimWS body ≠ "")
    (h4 : isValidEmail toA = true) :
    ((SendEmailHandler st now toA subject body .success none).2.success = true ∧
      GetEmailByID (SendEmailHandler st now toA subject body .success none).1
          st.nextEmailId =
        some ⟨st.nextEmailId, toA, subject, body, "sent", none, now, some now⟩) ∧
    (∀ reason, reason ≠ "" →
      (SendEmailHandler st now toA subject body (.failure reason) none).2.success
          = false ∧
      GetEmailByID
          (SendEmailHandler st now toA subject body (.failure reason) none).1
          st.nextEmailId =
        some ⟨st.nextEmailId, toA, subject, body, "failed", some reason, now, none⟩) ∧
    GetEmailByID (SendEmailHandler st now toA subject body .timeout none).1
        st.nextEmailId =
      some ⟨st.nextEmailId, toA, subject, body, "failed",
        some "timeout en envío SMTP", now, none⟩ := by
  refine ⟨⟨?_, ?_⟩, ?_, ?_⟩
  · simp [SendEmailHandler, h1, h2, h3, h4, sendSMTPResult]
  · simp only [SendEmailHandler, h1, h2, h3, h4, sendSMTPResult]
    simp [h1, h2, h3, h4]
    exact getEmail_markSent_insertQueued st now now toA subject body hfresh
  · intro reason hr
    constructor
    · simp [SendEmailHandler, h1, h2, h3, h4, sendSMTPResult, sendErrorResponse]
    · simp only [SendEmailHandler, h1, h2, h3, h4, sendSMTPResult]
      try simp [h1, h2, h3, h4]
      exact getEmail_markFailed_insertQueued st now toA subject body reason hfresh
  · simp only [SendEmailHandler, h1, h2, h3, h4, sendSMTPResult]
    simp [h1, h2, h3, h4]
    exact getEmail_markFailed_insertQueued st now toA subject body
      "timeout en envío SMTP" hfresh

/-- C6 witness: the theorem applied to the empty store with a concrete valid
input, evaluating the sent, failed and timed-out records. -/
theorem c6_direct_send_record_outcome_witness :
    (∀ e ∈ stEmpty.emails, e.id < stEmpty.nextEmailId) ∧
    trimWS "a@b.c" ≠ "" ∧ trimWS "s" ≠ "" ∧ trimWS "b" ≠ "" ∧
    isValidEmail "a@b.c" = true ∧
    GetEmailByID (SendEmailHandler stEmpty 7 "a@b.c" "s" "b" .timeout none).1
        stEmpty.nextEmailId =
      some ⟨stEmpty.nextEmailId, "a@b.c", "s", "b", "failed",
        some "timeout en envío SMTP", 7, none⟩ :=
  ⟨by decide, by decide, by decide, by decide, by decide,
    (c6_direct_send_record_outcome stEmpty 7 "a@b.c" "s" "b"
      (by decide) (by decide) (by decide) (by decide) (by decide)).2.2⟩

/-- A list in which no two elements both satisfy the predicate has at most
one element satisfying it. -/
theorem countP_le_one_of_pairwise {α : Type} {p : α → Bool} {l : List α}
    (h : l.Pairwise fun a b => ¬(p a = true ∧ p b = true)) : l.countP p ≤ 1 := by
  induction l with
  | nil => simp
  | cons a t ih =>
    obtain ⟨ha, ht⟩ := List.pairwise_cons.mp h
    by_cases hp : p a = true
    · have hz : t.countP p = 0 :=
        List.countP_eq_zero.mpr fun b hb hpb => ha b hb ⟨hp, hpb⟩
      simp [List.countP_cons, hp, hz]
    · simpa [List.countP_cons, hp] using ih ht

/-- In a list with pairwise-distinct identifiers, mapping an id-preserving
update and then looking up the id of a member finds exactly that member's
image. -/
theorem find?_map_of_unique_id {g : Email → Email} (hg : ∀ x, (g x).id = x.id)
    {l : List Email} {i : Nat} (hu : l.Pairwise fun a b => a.id ≠ b.id)
    {e : Email} (he : e ∈ l) (hei : e.id = i) :
    (l.map g).find? (fun x => x.id == i) = some (g e) := by
  induction l with
  | nil => cases he
  | cons a t ih =>
    obtain ⟨ha, ht⟩ := List.pairwise_cons.mp hu
    rcases List.mem_cons.mp he with rfl | he'
    · simp [List.find?_cons, hg, hei]
    · have hai : a.id ≠ i := fun hcontra => ha e he' (hcontra.trans hei.symm)
      have hfa : ((g a).id == i) = false := by simp [hg, hai]
      simp only [List.map_cons, List.find?_cons, hfa]
      exact ih ht he'

/-- C7: updateDraft is a conditional update keyed on status: when no record
with the id is currently a draft (including a nonexistent id) it returns
false and leaves every record unchanged; when the record with the id is a
draft (ids pairwise distinct) it returns true, the record's recipient,
subject and body are replaced, and every other record is untouched. -/
theorem c7_update_draft_conditional (st : Store) (id : Nat)
    (toA subject body : String) :
    ((∀ e ∈ st.emails, e.id = id → e.status ≠ "draft") →
      UpdateDraft st id toA subject body = (st, false)) ∧
    (st.emails.Pairwise (fun a b => a.id ≠ b.id) →
      ∀ e ∈ st.emails, e.id = id → e.status = "draft" →
        (UpdateDraft st id toA subject body).2 = true ∧
        GetEmailByID (UpdateDraft st id toA subject body).1 id =
          some { e with to_addr := toA, subject := subject, body := body } ∧
        ∀ x ∈ st.emails, x.id ≠ id →
          x ∈ (UpdateDraft st id toA subject body).1.emails) := by
  constructor
  · intro h
    unfold UpdateDraft
    have hhits : ∀ e ∈ st.emails, (e.id == id && e.status == "draft") = false := by
      intro e he
      by_cases hid : e.id = id
      · have := h e he hid
        simp [hid, this]
      · simp [hid]
    have hmap : (st.emails.map fun e =>
        if e.id == id && e.status == "draft" then
          { e with to_addr := toA, subject := subject, body := body }
        else e) = st.emails := by
      have hide : ∀ e ∈ st.emails,
          (if e.id == id && e.status == "draft" then
            { e with to_addr := toA, subject := subject, body := body }
          else e) = e := by
        intro e he
        rw [hhits e he]
        simp
      rw [List.map_congr_left hide]
      simp
    have hcount : st.emails.countP (fun e => e.id == id && e.status == "draft") = 0 :=
      List.countP_eq_zero.mpr fun e he => by simp [hhits e he]
    simp only [hmap, hcount]
    rfl
  · intro hu e he hid hst
    have hpe : (e.id == id && e.status == "draft") = true := by simp [hid, hst]
    refine ⟨?_, ?_, ?_⟩
    · have hge : 1 ≤ st.emails.countP (fun x => x.id == id && x.status == "draft") := by
        rw [Nat.one_le_iff_ne_zero]
        intro hz
        exact absurd hpe (by simpa using List.countP_eq_zero.mp hz e he)
      have hle : st.emails.countP (fun x => x.id == id && x.status == "draft") ≤ 1 :=
        countP_le_one_of_pairwise (hu.imp fun {a b} hab => by
          rintro ⟨hpa, hpb⟩
          simp only [Bool.and_eq_true, beq_iff_eq] at hpa hpb
          exact hab (hpa.1.trans hpb.1.symm))
      unfold UpdateDraft
      simp only [beq_iff_eq]
      omega
    · unfold UpdateDraft GetEmailByID
      have := find?_map_of_unique_id
        (g := fun x => if x.id == id && x.status == "draft" then
          { x with to_addr := toA, subject := subject, body := body } else x)
        (fun x => by by_cases hx : (x.id == id && x.status == "draft") = true <;> simp [hx])
        hu he hid
      rw [this]
      simp [hpe]
    · intro x hx hxid
      unfold UpdateDraft
      have hfx : (x.id == id && x.status == "draft") = false := by simp [hxid]
      exact List.mem_map.mpr ⟨x, hx, by simp [hfx]⟩

/-- C7 witness: the theorem applied to a concrete one-draft store: the update
succeeds and rewrites the draft record. -/
theorem c7_update_draft_conditional_witness :
    (([⟨1, "a@b.c", "s", "b", "draft", none, 0, none⟩] : List Email).Pairwise
      fun a b => a.id ≠ b.id) ∧
    GetEmailByID
      (UpdateDraft ⟨[⟨1, "a@b.c", "s", "b", "draft", none, 0, none⟩], 2, [], 1, []⟩
        1 "c@d.e" "s2" "b2").1 1 =
      some ⟨1, "c@d.e", "s2", "b2", "draft", none, 0, none⟩ :=
  ⟨by decide,
    ((c7_update_draft_conditional
        ⟨[⟨1, "a@b.c", "s", "b", "draft", none, 0, none⟩], 2, [], 1, []⟩
        1 "c@d.e" "s2" "b2").2 (by decide)
      ⟨1, "a@b.c", "s", "b", "draft", none, 0, none⟩ (by decide) rfl rfl).2.1⟩

/-- C4 amended: add-version fails with the validation error exactly when
templateKey, locale or subject trims to empty — the handler never checks the
body fields — and on that failure it returns before touching the store, so no
TemplateVersion row is created. -/
theorem c4_add_version_validation (st : Store) (now : Nat) (req : CreateVersionReq) :
    ((CreateTemplateVersionHandler st now req).isOk = false ↔
      (trimWS req.templateKey = "" ∨ trimWS req.locale = "" ∨
        trimWS req.subject = "")) ∧
    (trimWS req.locale = "" ∨ trimWS req.subject = "" →
      CreateTemplateVersionHandler st now req =
        .error "templateKey, locale y subject son requeridos") := by
  have hiff : (trimWS req.templateKey == "" || trimWS req.locale == "" ||
      trimWS req.subject == "") = true ↔
      (trimWS req.templateKey = "" ∨ trimWS req.locale = "" ∨
        trimWS req.subject = "") := by
    simp [or_assoc]
  constructor
  · unfold CreateTemplateVersionHandler
    by_cases hcond : (trimWS req.templateKey == "" || trimWS req.locale == "" ||
        trimWS req.subject == "") = true
    · rw [if_pos hcond]
      simpa [Except.isOk, Except.toBool] using hiff.mp hcond
    · rw [if_neg hcond]
      simp only [Except.isOk, Except.toBool, Bool.true_eq_false, false_iff]
      exact fun hcontra => hcond (hiff.mpr hcontra)
  · intro hor
    unfold CreateTemplateVersionHandler
    rw [if_pos (hiff.mpr (Or.inr hor))]

/-- C4 witness: the amended theorem applied at a concrete empty-locale
request, which the handler rejects with the validation error. -/
theorem c4_add_version_validation_witness :
    (trimWS "" = "" ∨ trimWS "s" = "") ∧
    CreateTemplateVersionHandler stEmpty 3 ⟨"k", "", "s", none, some "b", false⟩ =
      .error "templateKey, locale y subject son requeridos" :=
  ⟨Or.inl (by decide),
    (c4_add_version_validation stEmpty 3 ⟨"k", "", "s", none, some "b", false⟩).2
      (Or.inl (by decide))⟩

/-- Folding the version maximum over rows of other templates leaves the
accumulator unchanged. -/
theorem foldl_max_of_no_match (tid : Nat) :
    ∀ (l : List TVRow) (m : Nat), (∀ v ∈ l, v.templateId ≠ tid) →
      l.foldl (fun m v => if v.templateId == tid then max m v.version else m) m
        = m := by
  intro l
  induction l with
  | nil => intro m _; rfl
  | cons a t ih =>
    intro m h
    have ha : (a.templateId == tid) = false := by
      simp [h a (List.mem_cons_self a t)]
    rw [List.foldl_cons, ha]
    simp only [Bool.false_eq_true, if_false]
    exact ih m fun v hv => h v (List.mem_cons_of_mem a hv)

/-- C5 amended: the next version number is computed per template across all
locales — for an existing template key the inserted row gets
max(all versions of the template)+1, for a fresh key a new template row is
created and the inserted version gets max over the (empty) set of rows of the
fresh template id, i.e. 1 when no version row references that id; and adding
three versions to a fresh template under one locale yields 1, 2, 3. -/
theorem c5_version_numbering (st : Store) (now : Nat) (key locale subject : String)
    (bh bt : Option String) (act : Bool) :
    (∀ t, st.templates.find? (fun u => u.tplKey == key) = some t →
      (CreateTemplateVersion st now key locale subject bh bt act).versions =
        st.versions ++
          [⟨t.id, maxVersionFor st t.id + 1, locale, subject, bh, bt, act, now⟩]) ∧
    (st.templates.find? (fun u => u.tplKey == key) = none →
      (CreateTemplateVersion st now key locale subject bh bt act).versions =
        st.versions ++
          [⟨st.nextTemplateId, maxVersionFor st st.nextTemplateId + 1,
            locale, subject, bh, bt, act, now⟩]) ∧
    ((∀ v ∈ st.versions, v.templateId ≠ st.nextTemplateId) →
      maxVersionFor st st.nextTemplateId = 0) ∧
    ((CreateTemplateVersion (CreateTemplateVersion (CreateTemplateVersion stEmpty 1
        "w" "en" "s" none (some "b") false) 2 "w" "en" "s" none (some "b") false) 3
        "w" "en" "s" none (some "b") false).versions.map fun v => v.version)
      = [1, 2, 3] := by
  refine ⟨?_, ?_, ?_, by decide⟩
  · intro t ht
    simp [CreateTemplateVersion, ht, Nat.succ_ne_zero]
  · intro hnone
    simp [CreateTemplateVersion, hnone, EnsureTemplate, maxVersionFor,
      Nat.succ_ne_zero]
  · intro h
    unfold maxVersionFor
    exact foldl_max_of_no_match st.nextTemplateId st.versions 0 h

/-- C5 witness: the amended theorem applied to a fresh template key on the
one-template store: the new template gets id 2 and its first version is
numbered maxVersionFor+1 = 1. -/
theorem c5_version_numbering_witness :
    stActive.templates.find? (fun u => u.tplKey == "nk") = none ∧
    (CreateTemplateVersion stActive 9 "nk" "en" "s" none none false).versions =
      stActive.versions ++
        [⟨stActive.nextTemplateId, maxVersionFor stActive stActive.nextTemplateId + 1,
          "en", "s", none, none, false, 9⟩] :=
  ⟨by decide,
    (c5_version_numbering stActive 9 "nk" "en" "s" none none false).2.1 (by decide)⟩

/-- Setting the active flag of a row does not change which template key it
joins to (the join reads only the template id). -/
theorem tplKeyMatches_set_active (st : Store) (key : String) (v : TVRow)
    (b : Bool) :
    tplKeyMatches st key { v with isActive := b } = tplKeyMatches st key v := rfl

/-- Composite effect of the two activation UPDATEs on one row: a row of the
requested key and locale ends up active exactly when it carries the requested
version number; every other row is untouched. -/
theorem actStep_char (st : Store) (key : String) (ver : Nat) (loc : String)
    (v : TVRow) :
    actStep2 st key ver loc (actStep1 st key loc v) =
      if tplKeyMatches st key v && v.locale == loc then
        { v with isActive := v.version == ver }
      else v := by
  unfold actStep1 actStep2
  by_cases h : (tplKeyMatches st key v && v.locale == loc) = true
  · by_cases h2 : (v.version == ver) = true
    · simp [h, h2, tplKeyMatches_set_active]
    · simp [h, h2, tplKeyMatches_set_active]
  · simp [h]

/-- Two rows that are neither a duplicate (template, version, locale) triple
nor simultaneously active stay non-simultaneously-active through an
activation pass. -/
theorem activate_rows_no_double_active (st : Store) (key : String) (ver : Nat)
    (loc : String) (a b : TVRow)
    (h1 : ¬(a.templateId = b.templateId ∧ a.version = b.version ∧
      a.locale = b.locale))
    (h2 : ¬ ActivePair a b) :
    ¬ ActivePair (actStep2 st key ver loc (actStep1 st key loc a))
        (actStep2 st key ver loc (actStep1 st key loc b)) := by
  rw [actStep_char, actStep_char]
  by_cases hca : (tplKeyMatches st key a && a.locale == loc) = true
  <;> by_cases hcb : (tplKeyMatches st key b && b.locale == loc) = true
  · rw [if_pos hca, if_pos hcb]
    rintro ⟨hact_a, hact_b, htid, hloc⟩
    rw [beq_iff_eq] at hact_a hact_b
    exact h1 ⟨htid, hact_a.trans hact_b.symm, hloc⟩
  · rw [if_pos hca, if_neg hcb]
    rintro ⟨hact_a, hact_b, htid, hloc⟩
    apply hcb
    obtain ⟨hma, hla⟩ := Bool.and_eq_true_iff.mp hca
    have hmb : tplKeyMatches st key b = true := by
      unfold tplKeyMatches at hma ⊢
      rw [← htid]
      exact hma
    have hlb : (b.locale == loc) = true := by rw [← hloc]; exact hla
    exact Bool.and_eq_true_iff.mpr ⟨hmb, hlb⟩
  · rw [if_neg hca, if_pos hcb]
    rintro ⟨hact_a, hact_b, htid, hloc⟩
    apply hca
    obtain ⟨hmb, hlb⟩ := Bool.and_eq_true_iff.mp hcb
    have hma : tplKeyMatches st key a = true := by
      unfold tplKeyMatches at hmb ⊢
      rw [htid]
      exact hmb
    have hla : (a.locale == loc) = true := by rw [hloc]; exact hlb
    exact Bool.and_eq_true_iff.mpr ⟨hma, hla⟩
  · rw [if_neg hca, if_neg hcb]
    exact h2

/-- Appending a row inserted with the active flag cleared cannot create a
doubly-active (template, locale) pair. -/
theorem atMostOne_append_inactive (vs : List TVRow) (row : TVRow)
    (ha : vs.Pairwise fun a b => ¬ ActivePair a b) (hrow : row.isActive = false) :
    (vs ++ [row]).Pairwise fun a b => ¬ ActivePair a b := by
  rw [List.pairwise_append]
  refine ⟨ha, List.pairwise_singleton _ _, ?_⟩
  intro a _ b hb
  rw [List.mem_singleton] at hb
  subst hb
  rintro ⟨_, hb, _⟩
  rw [hrow] at hb
  cases hb

/-- C1 amended: activateVersion preserves (indeed re-establishes) the
at-most-one-active invariant per (template, locale), given the table's
UNIQUE(template_id, version, locale) constraint; and addVersion with
activateOnCreate=false preserves it as well.  With activateOnCreate=true the
new row is inserted already active with no deactivation, which can violate
the invariant — see the counterexample. -/
theorem c1_invariant_preservation (st : Store) (key : String) (ver : Nat)
    (loc : String) (now : Nat) (locale subject : String)
    (bh bt : Option String) :
    (VersionTriplesUnique st → AtMostOneActive st →
      AtMostOneActive (ActivateTemplateVersion st key ver loc)) ∧
    (AtMostOneActive st →
      AtMostOneActive
        (CreateTemplateVersion st now key locale subject bh bt false)) := by
  constructor
  · intro hu ha
    unfold AtMostOneActive ActivateTemplateVersion at *
    unfold VersionTriplesUnique at hu
    simp only [List.map_map]
    rw [List.pairwise_map]
    refine (hu.and ha).imp ?_
    intro a b hab
    exact activate_rows_no_double_active st key ver loc a b hab.1 hab.2
  · intro ha
    unfold AtMostOneActive at ha ⊢
    unfold CreateTemplateVersion
    cases hf : st.templates.find? (fun t => t.tplKey == key) with
    | some t =>
      simp only [hf]
      exact atMostOne_append_inactive _ _ ha rfl
    | none =>
      simp only [hf, EnsureTemplate]
      exact atMostOne_append_inactive _ _ ha rfl

/-- C1 witness: the amended theorem applied to the one-active-version store:
re-activating version 1 keeps the invariant, and adding an inactive version
keeps it too. -/
theorem c1_invariant_preservation_witness :
    VersionTriplesUnique stActive ∧ AtMostOneActive stActive ∧
    AtMostOneActive (ActivateTemplateVersion stActive "k" 1 "en") ∧
    AtMostOneActive (CreateTemplateVersion stActive 9 "k" "fr" "s" none none false) :=
  ⟨by decide, by decide,
    (c1_invariant_preservation stActive "k" 1 "en" 9 "fr" "s" none none).1
      (by decide) (by decide),
    (c1_invariant_preservation stActive "k" 1 "en" 9 "fr" "s" none none).2
      (by decide)⟩

/-- No escaped character expansion ever contains a literal angle bracket. -/
theorem escapeChar_no_lt (c : Char) : '<' ∉ (escapeChar c).data := by
  unfold escapeChar
  split
  · decide
  · split
    · decide
    · split
      · decide
      · split
        · decide
        · split
          · decide
          · split
            · decide
            · rename_i h1 h2 h3 h4 h5 h6
              intro hmem
              rw [show (String.singleton c).data = [c] from rfl,
                List.mem_singleton] at hmem
              exact h2 hmem.symm

/-- Folding the escaper over a character list yields a string with no '<'. -/
theorem escapeList_no_lt : ∀ l : List Char,
    '<' ∉ ((l.foldr (fun c acc => escapeChar c ++ acc) "").data) := by
  intro l
  induction l with
  | nil => decide
  | cons c cs ih =>
    rw [List.foldr_cons, String.data_append]
    intro hmem
    rcases List.mem_append.mp hmem with h | h
    · exact escapeChar_no_lt c h
    · exact ih h

/-- The HTML escaping of any substituted value contains no '<'. -/
theorem escapeHTML_no_lt (s : String) : '<' ∉ (escapeHTML s).data :=
  escapeList_no_lt s.data

/-- When the template's literal segments contain no '<', neither does the
rendered HTML: literal text passes through '<'-free and every substituted
value is escaped '<'-free. -/
theorem renderHTML_no_lt (d : List (String × String)) :
    ∀ t : List Seg, (∀ s, Seg.lit s ∈ t → '<' ∉ s.data) →
      '<' ∉ (renderHTML t d).data := by
  intro t
  induction t with
  | nil => intro _ hmem; exact List.not_mem_nil _ hmem
  | cons sg rest ih =>
    intro h
    cases sg with
    | lit s =>
      simp only [renderHTML]
      intro hmem
      rw [String.data_append] at hmem
      rcases List.mem_append.mp hmem with hx | hx
      · exact h s (List.mem_cons_self _ _) hx
      · exact ih (fun s2 hs2 => h s2 (List.mem_cons_of_mem _ hs2)) hx
    | field f =>
      simp only [renderHTML]
      intro hmem
      rw [String.data_append] at hmem
      rcases List.mem_append.mp hmem with hx | hx
      · exact escapeHTML_no_lt _ hx
      · exact ih (fun s2 hs2 => h s2 (List.mem_cons_of_mem _ hs2)) hx

/-- A pattern containing a character the text lacks cannot occur in it. -/
theorem not_infix_of_no_char {pat l : List Char} (hc : '<' ∈ pat)
    (hl : '<' ∉ l) : ¬ (pat <:+: l) :=
  fun hinf => hl (hinf.subset hc)

/-- An occurrence in the right part survives prepending. -/
theorem infix_append_left {α : Type} {pat l₂ : List α} (l₁ : List α)
    (h : pat <:+: l₂) : pat <:+: l₁ ++ l₂ := by
  obtain ⟨s, t, rfl⟩ := h
  exact ⟨l₁ ++ s, t, by simp⟩

/-- An occurrence in the left part survives appending. -/
theorem infix_append_right {α : Type} {pat l₁ : List α} (l₂ : List α)
    (h : pat <:+: l₁) : pat <:+: l₁ ++ l₂ := by
  obtain ⟨s, t, rfl⟩ := h
  exact ⟨s, t ++ l₂, by simp⟩

/-- An occurrence inside a substituted value survives text rendering: the
value is inserted verbatim. -/
theorem renderText_contains_value (d : List (String × String)) (pat : List Char) :
    ∀ (t : List Seg) (f : String), Seg.field f ∈ t →
      pat <:+: (lookupField d f).data → pat <:+: (renderText t d).data := by
  intro t
  induction t with
  | nil => intro f hf; cases hf
  | cons sg rest ih =>
    intro f hf hv
    rcases List.mem_cons.mp hf with heq | hf'
    · subst heq
      simp only [renderText]
      rw [String.data_append]
      exact infix_append_right _ hv
    · cases sg with
      | lit s =>
        simp only [renderText]
        rw [String.data_append]
        exact infix_append_left _ (ih f hf' hv)
      | field g =>
        simp only [renderText]
        rw [String.data_append]
        exact infix_append_left _ (ih f hf' hv)

/-- C8 amended: renderHTML escapes substituted values — every escaped value
is free of '<', so when the template's own literal text contains no '<' the
rendered HTML contains no literal `<script>` substring even when substituted
values do; renderText performs no escaping, so whenever a substituted value
contains `<script>` its text rendering does as well. -/
theorem c8_escaping_semantics (t : List Seg) (d : List (String × String)) :
    ((∀ s, Seg.lit s ∈ t → '<' ∉ s.data) →
      containsSub (renderHTML t d) "<script>" = false) ∧
    (∀ f, Seg.field f ∈ t → containsSub (lookupField d f) "<script>" = true →
      containsSub (renderText t d) "<script>" = true) := by
  constructor
  · intro h
    unfold containsSub
    rw [decide_eq_false_iff_not]
    exact not_infix_of_no_char (by decide) (renderHTML_no_lt d t h)
  · intro f hf hv
    unfold containsSub at hv ⊢
    rw [decide_eq_true_eq] at hv
    rw [decide_eq_true_eq]
    exact renderText_contains_value d _ t f hf hv

/-- A template whose literal text is free of angle brackets. -/
def tSafe : List Seg := [.lit "hi ", .field "x"]

/-- C8 witness: the amended theorem applied to concrete templates — the
'<'-free template renders HTML without `<script>` although the substituted
value contains it, while the text rendering of the counterexample template
does contain it. -/
theorem c8_escaping_semantics_witness :
    ((∀ s, Seg.lit s ∈ tSafe → '<' ∉ s.data) ∧
      containsSub (renderHTML tSafe dC8) "<script>" = false) ∧
    (Seg.field "x" ∈ tC8 ∧
      containsSub (lookupField dC8 "x") "<script>" = true ∧
      containsSub (renderText tC8 dC8) "<script>" = true) :=
  by
  have hlit : ∀ s, Seg.lit s ∈ tSafe → '<' ∉ s.data := by
    intro s hs
    simp only [tSafe, List.mem_cons, List.not_mem_nil, or_false] at hs
    rcases hs with hs | hs
    · cases hs
      decide
    · cases hs
  exact ⟨⟨hlit, (c8_escaping_semantics tSafe dC8).1 hlit⟩,
    ⟨by decide, by decide,
      (c8_escaping_semantics tC8 dC8).2 "x" (by decide) (by decide)⟩⟩

/-- When some element satisfies the predicate, find? returns the first such
element. -/
theorem find?_exists_spec {α : Type} {p : α → Bool} {l : List α}
    (h : ∃ a ∈ l, p a = true) : ∃ w ∈ l, p w = true ∧ l.find? p = some w := by
  induction l with
  | nil => obtain ⟨a, ha, _⟩ := h; cases ha
  | cons a t ih =>
    by_cases hpa : p a = true
    · exact ⟨a, List.mem_cons_self a t, hpa, by simp [List.find?_cons, hpa]⟩
    · obtain ⟨b, hb, hpb⟩ := h
      rcases List.mem_cons.mp hb with rfl | hb'
      · exact absurd hpb hpa
      · obtain ⟨w, hw, hpw, hfw⟩ := ih ⟨b, hb', hpb⟩
        have hpa' : p a = false := by simpa using hpa
        exact ⟨w, List.mem_cons_of_mem a hw, hpw,
          by simp [List.find?_cons, hpa', hfw]⟩

/-- maxByCreated finds nothing exactly on the empty list. -/
theorem maxByCreated_none_iff : ∀ {l : List TVRow},
    maxByCreated l = none ↔ l = [] := by
  intro l
  cases l with
  | nil => simp [maxByCreated]
  | cons v vs =>
    simp only [maxByCreated]
    constructor
    · intro h
      exfalso
      cases hm : maxByCreated vs with
      | none =>
        simp only [hm] at h
        cases h
      | some w =>
        simp only [hm] at h
        split at h <;> cases h
    · intro h
      simp at h

/-- maxByCreated returns a member whose creation time is maximal. -/
theorem maxByCreated_spec : ∀ {l : List TVRow} {w : TVRow},
    maxByCreated l = some w → w ∈ l ∧ ∀ u ∈ l, u.createdAt ≤ w.createdAt := by
  intro l
  induction l with
  | nil => intro w h; cases h
  | cons v vs ih =>
    intro w h
    simp only [maxByCreated] at h
    cases hm : maxByCreated vs with
    | none =>
      simp only [hm] at h
      cases h
      have hvs : vs = [] := maxByCreated_none_iff.mp hm
      subst hvs
      refine ⟨List.mem_cons_self _ _, ?_⟩
      intro u hu
      rcases List.mem_cons.mp hu with rfl | hu'
      · exact Nat.le_refl _
      · cases hu'
    | some m =>
      simp only [hm] at h
      obtain ⟨hmem, hmax⟩ := ih hm
      by_cases hgt : m.createdAt > v.createdAt
      · rw [if_pos hgt] at h
        cases h
        refine ⟨List.mem_cons_of_mem _ hmem, ?_⟩
        intro u hu
        rcases List.mem_cons.mp hu with rfl | hu'
        · exact Nat.le_of_lt hgt
        · exact hmax u hu'
      · rw [if_neg hgt] at h
        cases h
        refine ⟨List.mem_cons_self _ _, ?_⟩
        intro u hu
        rcases List.mem_cons.mp hu with rfl | hu'
        · exact Nat.le_refl _
        · exact Nat.le_trans (hmax u hu') (Nat.le_of_not_lt hgt)

/-- C9: getActiveVersion — an unspecified locale behaves as the configured
default 'es-GT'; when an active row for the exact (key, locale) exists the
result is such a row's projection; otherwise, when some active row exists for
the key under any locale, the result is the projection of a most recently
created such row; and the result is none (NotFoundError) exactly when the key
has no active row under any locale. -/
theorem c9_get_active_version_spec (st : Store) (key locale : String) :
    GetActiveTemplateVersion st key "" = GetActiveTemplateVersion st key "es-GT" ∧
    (locale ≠ "" →
      (∃ v ∈ st.versions,
        (tplKeyMatches st key v && v.locale == locale && v.isActive) = true) →
      ∃ v ∈ st.versions,
        (tplKeyMatches st key v && v.locale == locale && v.isActive) = true ∧
        GetActiveTemplateVersion st key locale =
          some ⟨v.subject, v.bodyHTML, v.bodyText⟩) ∧
    (locale ≠ "" →
      (∀ v ∈ st.versions,
        (tplKeyMatches st key v && v.locale == locale && v.isActive) = false) →
      (∃ v ∈ st.versions, (tplKeyMatches st key v && v.isActive) = true) →
      ∃ v ∈ st.versions, (tplKeyMatches st key v && v.isActive) = true ∧
        (∀ u ∈ st.versions, (tplKeyMatches st key u && u.isActive) = true →
          u.createdAt ≤ v.createdAt) ∧
        GetActiveTemplateVersion st key locale =
          some ⟨v.subject, v.bodyHTML, v.bodyText⟩) ∧
    (GetActiveTemplateVersion st key locale = none ↔
      ∀ v ∈ st.versions, (tplKeyMatches st key v && v.isActive) = false) := by
  refine ⟨rfl, ?_, ?_, ?_⟩
  · intro hne hex
    simp only [GetActiveTemplateVersion, if_neg hne]
    obtain ⟨w, hw, hpw, hfw⟩ := find?_exists_spec hex
    rw [hfw]
    exact ⟨w, hw, hpw, rfl⟩
  · intro hne hnone hex
    simp only [GetActiveTemplateVersion, if_neg hne]
    have hfn : st.versions.find? (fun v =>
        tplKeyMatches st key v && v.locale == locale && v.isActive) = none := by
      rw [List.find?_eq_none]
      intro v hv hp
      rw [hnone v hv] at hp
      cases hp
    rw [hfn]
    have hmem0 : ∃ w, maxByCreated (st.versions.filter fun v =>
        tplKeyMatches st key v && v.isActive) = some w := by
      cases hmc : maxByCreated (st.versions.filter fun v =>
          tplKeyMatches st key v && v.isActive) with
      | none =>
        obtain ⟨v, hv, hq⟩ := hex
        have hvf : v ∈ st.versions.filter (fun v =>
            tplKeyMatches st key v && v.isActive) :=
          List.mem_filter.mpr ⟨hv, hq⟩
        rw [maxByCreated_none_iff.mp hmc] at hvf
        cases hvf
      | some w => exact ⟨w, rfl⟩
    obtain ⟨w, hmw⟩ := hmem0
    obtain ⟨hwmem, hwmax⟩ := maxByCreated_spec hmw
    obtain ⟨hwin, hwq⟩ := List.mem_filter.mp hwmem
    rw [hmw]
    exact ⟨w, hwin, hwq,
      fun u hu hq2 => hwmax u (List.mem_filter.mpr ⟨hu, hq2⟩), rfl⟩
  · constructor
    · intro hres v hv
      simp only [GetActiveTemplateVersion] at hres
      cases hf : st.versions.find? (fun v =>
          tplKeyMatches st key v &&
            v.locale == (if locale = "" then "es-GT" else locale) &&
            v.isActive) with
      | some w => rw [hf] at hres; cases hres
      | none =>
        rw [hf] at hres
        cases hmc : maxByCreated (st.versions.filter fun v =>
            tplKeyMatches st key v && v.isActive) with
        | some w => rw [hmc] at hres; cases hres
        | none =>
          rcases Bool.eq_false_or_eq_true
              (tplKeyMatches st key v && v.isActive) with hq | hq
          case inr => exact hq
          case inl =>
            exfalso
            have hvf : v ∈ st.versions.filter (fun v =>
                tplKeyMatches st key v && v.isActive) :=
              List.mem_filter.mpr ⟨hv, hq⟩
            rw [maxByCreated_none_iff.mp hmc] at hvf
            cases hvf
    · intro hall
      simp only [GetActiveTemplateVersion]
      have hfn : st.versions.find? (fun v =>
          tplKeyMatches st key v &&
            v.locale == (if locale = "" then "es-GT" else locale) &&
            v.isActive) = none := by
        rw [List.find?_eq_none]
        intro v hv hp
        obtain ⟨hml, ha⟩ := Bool.and_eq_true_iff.mp hp
        obtain ⟨hm, _⟩ := Bool.and_eq_true_iff.mp hml
        have hfalse := hall v hv
        rw [hm, ha] at hfalse
        cases hfalse
      rw [hfn]
      have hfe : (st.versions.filter fun v =>
          tplKeyMatches st key v && v.isActive) = [] := by
        rw [List.filter_eq_nil_iff]
        intro v hv hq
        rw [hall v hv] at hq
        cases hq
      rw [hfe]
      rfl

/-- C9 witness: the theorem's exact-match branch applied to the
one-active-version store under locale `en`. -/
theorem c9_get_active_version_spec_witness :
    ("en" : String) ≠ "" ∧
    ∃ v ∈ stActive.versions,
      (tplKeyMatches stActive "k" v && v.locale == "en" && v.isActive) = true ∧
      GetActiveTemplateVersion stActive "k" "en" =
        some ⟨v.subject, v.bodyHTML, v.bodyText⟩ :=
  ⟨by decide,
    (c9_get_active_version_spec stActive "k" "en").2.1 (by decide)
      ⟨⟨1, 1, "en", "s", none, some "b", true, 0⟩, by decide, by decide⟩⟩

end Mailer
